import Mathlib

/-!
Verification of the share-cost backend core: the capability token model
(`Permissions` in `src/backend/src/auth.rs`) and the ledger engine
(the balance computation in `get_balances`, `src/backend/src/routes.rs`),
shallowly embedded in Lean.  Machine floating-point amounts are modelled
by exact rationals; UUIDs by natural numbers.
-/

namespace ShareCost

/-! Capability sets (`src/backend/src/auth.rs`). -/

/-- Rust `Permissions` from auth.rs: five independently nullable booleans.
`none` means the field was absent from the token (legacy). -/
structure Permissions where
  can_delete_group : Option Bool
  can_manage_members : Option Bool
  can_update_payment : Option Bool
  can_add_expenses : Option Bool
  can_edit_expenses : Option Bool
deriving DecidableEq

namespace Permissions

/-- Every permission granted: `Permissions::all()`. -/
def all : Permissions :=
  ⟨some true, some true, some true, some true, some true⟩

/-- Field resolution `Permissions::resolve`: `None` (old token) resolves to `true`. -/
def resolve (opt : Option Bool) : Bool :=
  opt.getD true

def has_delete_group (p : Permissions) : Bool := resolve p.can_delete_group
def has_manage_members (p : Permissions) : Bool := resolve p.can_manage_members
def has_update_payment (p : Permissions) : Bool := resolve p.can_update_payment
def has_add_expenses (p : Permissions) : Bool := resolve p.can_add_expenses
def has_edit_expenses (p : Permissions) : Bool := resolve p.can_edit_expenses

/-- Conjunction of the five accessors: `Permissions::has_all`. -/
def has_all (p : Permissions) : Bool :=
  p.has_delete_group && p.has_manage_members && p.has_update_payment
    && p.has_add_expenses && p.has_edit_expenses

/-- Attenuation `Permissions::cap_by`: per-field AND of the resolved values. -/
def cap_by (p caller : Permissions) : Permissions :=
  { can_delete_group := some (p.has_delete_group && caller.has_delete_group)
    can_manage_members := some (p.has_manage_members && caller.has_manage_members)
    can_update_payment := some (p.has_update_payment && caller.has_update_payment)
    can_add_expenses := some (p.has_add_expenses && caller.has_add_expenses)
    can_edit_expenses := some (p.has_edit_expenses && caller.has_edit_expenses) }

/-- Merge `Permissions::union_with`: per-field OR of the resolved values. -/
def union_with (p other : Permissions) : Permissions :=
  { can_delete_group := some (p.has_delete_group || other.has_delete_group)
    can_manage_members := some (p.has_manage_members || other.has_manage_members)
    can_update_payment := some (p.has_update_payment || other.has_update_payment)
    can_add_expenses := some (p.has_add_expenses || other.has_add_expenses)
    can_edit_expenses := some (p.has_edit_expenses || other.has_edit_expenses) }

end Permissions

/-- Token `Claims` from auth.rs: group id, expiry, optional permissions. -/
structure Claims where
  group_id : Nat
  exp : Nat
  permissions : Option Permissions
deriving DecidableEq

/-- Resolution `Claims::effective_permissions`: absent permissions default to `all()`. -/
def Claims.effective_permissions (c : Claims) : Permissions :=
  c.permissions.getD Permissions.all

/-! Ledger engine (`get_balances` in src/backend/src/routes.rs).

Decimal amounts (`BigDecimal` converted to `f64` in the code) are modelled
exactly as rationals; member UUIDs as naturals. -/

/-- A member row as fetched by `get_balances` (only id and name matter). -/
structure MemberRow where
  id : Nat
  name : String
deriving DecidableEq

/-- An expense row together with its fetched split member ids. -/
structure ExpenseRow where
  amount : ℚ
  exchange_rate : ℚ
  paid_by : Nat
  expense_type : String
  transfer_to : Option Nat
  splits : List Nat
deriving DecidableEq

/-- One `Balance` entry of the response. -/
structure Balance where
  user_id : Nat
  user_name : String
  balance : ℚ
deriving DecidableEq

/-- Update step `balances.iter_mut().find(|b| b.user_id == id)` followed by adding `d`
to the found entry: only the first entry with the given id is updated, and
when no entry matches nothing happens. -/
def addToFirst : List Balance → Nat → ℚ → List Balance
  | [], _, _ => []
  | b :: rest, i, d =>
    if b.user_id = i then { b with balance := b.balance + d } :: rest
    else b :: addToFirst rest i d

/-- One iteration of the `for expense_row in expense_rows` loop of
`get_balances`: dispatch on `expense_type` ("transfer", "income", and the
catchall expense arm) and update the balances. -/
def applyExpense (bs : List Balance) (e : ExpenseRow) : List Balance :=
  let amount := e.amount * e.exchange_rate
  if e.expense_type = "transfer" then
    let bs1 := addToFirst bs e.paid_by amount
    match e.transfer_to with
    | some to_id => addToFirst bs1 to_id (-amount)
    | none => bs1
  else if e.expense_type = "income" then
    if e.splits.length = 0 then bs
    else
      let split_amount := amount / e.splits.length
      let bs1 := addToFirst bs e.paid_by (-amount)
      e.splits.foldl (fun acc m => addToFirst acc m split_amount) bs1
  else
    if e.splits.length = 0 then bs
    else
      let split_amount := amount / e.splits.length
      let bs1 := addToFirst bs e.paid_by amount
      e.splits.foldl (fun acc m => addToFirst acc m (-split_amount)) bs1

/-- The balance list `get_balances` initializes: one zero entry per member,
in member order. -/
def initBalances (ms : List MemberRow) : List Balance :=
  ms.map fun m => { user_id := m.id, user_name := m.name, balance := 0 }

/-- The pure core of `get_balances`: run the expense loop over the
member-initialized balances. -/
def compute_balances (ms : List MemberRow) (es : List ExpenseRow) : List Balance :=
  es.foldl applyExpense (initBalances ms)

/-- The legs of one transaction: the (member id, signed amount) updates
`applyExpense` performs, in order.  The divisor is the length of the full
split list, whether or not its members exist in the balance list. -/
def txLegs (e : ExpenseRow) : List (Nat × ℚ) :=
  let amount := e.amount * e.exchange_rate
  if e.expense_type = "transfer" then
    (e.paid_by, amount) ::
      (match e.transfer_to with
       | some to_id => [(to_id, -amount)]
       | none => [])
  else if e.expense_type = "income" then
    if e.splits.length = 0 then []
    else (e.paid_by, -amount) ::
      e.splits.map fun m => (m, amount / e.splits.length)
  else
    if e.splits.length = 0 then []
    else (e.paid_by, amount) ::
      e.splits.map fun m => (m, -(amount / e.splits.length))

/-- Apply a list of legs in order. -/
def applyLegs (bs : List Balance) (l : List (Nat × ℚ)) : List Balance :=
  l.foldl (fun acc p => addToFirst acc p.1 p.2) bs

/-- Sum of all balances in the response. -/
def sumBalances (bs : List Balance) : ℚ :=
  (bs.map Balance.balance).sum

theorem applyExpense_eq_applyLegs (bs : List Balance) (e : ExpenseRow) :
    applyExpense bs e = applyLegs bs (txLegs e) := by
  unfold applyExpense txLegs applyLegs
  by_cases ht : e.expense_type = "transfer"
  · simp only [ht, if_pos rfl]
    cases e.transfer_to <;> simp
  · by_cases hi : e.expense_type = "income"
    · simp only [ht, hi, if_neg, if_pos rfl, if_true, reduceIte]
      by_cases h0 : e.splits.length = 0
      · simp [h0]
      · simp [h0, List.foldl_map]
    · simp only [ht, hi, reduceIte]
      by_cases h0 : e.splits.length = 0
      · simp [h0]
      · simp [h0, List.foldl_map]

theorem addToFirst_comm (bs : List Balance) (i j : Nat) (d e : ℚ) :
    addToFirst (addToFirst bs i d) j e = addToFirst (addToFirst bs j e) i d := by
  induction bs with
  | nil => rfl
  | cons b rest ih =>
    by_cases hi : b.user_id = i
    · by_cases hj : b.user_id = j
      · have hij : i = j := hi ▸ hj
        subst hij
        simp [addToFirst, hi, add_right_comm]
      · have hij : ¬i = j := fun h => hj (hi.trans h)
        simp [addToFirst, hi, hj, hij]
    · by_cases hj : b.user_id = j
      · have hij : ¬j = i := fun h => hi (hj.trans h)
        simp [addToFirst, hi, hj, hij]
      · simp [addToFirst, hi, hj, ih]

theorem applyLegs_addToFirst (l : List (Nat × ℚ)) (bs : List Balance) (i : Nat) (d : ℚ) :
    applyLegs (addToFirst bs i d) l = addToFirst (applyLegs bs l) i d := by
  induction l generalizing bs with
  | nil => rfl
  | cons p l ih =>
    show applyLegs (addToFirst (addToFirst bs i d) p.1 p.2) l = _
    rw [addToFirst_comm, ih]
    rfl

theorem applyLegs_swap (l1 l2 : List (Nat × ℚ)) (bs : List Balance) :
    applyLegs (applyLegs bs l1) l2 = applyLegs (applyLegs bs l2) l1 := by
  induction l1 generalizing bs with
  | nil => rfl
  | cons p l1 ih =>
    show applyLegs (applyLegs (addToFirst bs p.1 p.2) l1) l2 = _
    rw [ih, applyLegs_addToFirst]
    rfl

theorem applyExpense_swap (bs : List Balance) (e1 e2 : ExpenseRow) :
    applyExpense (applyExpense bs e1) e2 = applyExpense (applyExpense bs e2) e1 := by
  simp only [applyExpense_eq_applyLegs]
  exact applyLegs_swap _ _ bs

theorem addToFirst_map_user_id (bs : List Balance) (i : Nat) (d : ℚ) :
    (addToFirst bs i d).map Balance.user_id = bs.map Balance.user_id := by
  induction bs with
  | nil => rfl
  | cons b rest ih => by_cases h : b.user_id = i <;> simp [addToFirst, h, ih]

theorem applyLegs_map_user_id (l : List (Nat × ℚ)) (bs : List Balance) :
    (applyLegs bs l).map Balance.user_id = bs.map Balance.user_id := by
  induction l generalizing bs with
  | nil => rfl
  | cons p l ih =>
    show (applyLegs (addToFirst bs p.1 p.2) l).map Balance.user_id = _
    rw [ih, addToFirst_map_user_id]

theorem applyExpense_map_user_id (bs : List Balance) (e : ExpenseRow) :
    (applyExpense bs e).map Balance.user_id = bs.map Balance.user_id := by
  rw [applyExpense_eq_applyLegs, applyLegs_map_user_id]

theorem addToFirst_not_mem (bs : List Balance) (i : Nat) (d : ℚ)
    (h : i ∉ bs.map Balance.user_id) : addToFirst bs i d = bs := by
  induction bs with
  | nil => rfl
  | cons b rest ih =>
    simp only [List.map_cons, List.mem_cons, not_or] at h
    rw [addToFirst, if_neg (fun hb => h.1 hb.symm), ih h.2]

theorem sumBalances_addToFirst_mem (bs : List Balance) (i : Nat) (d : ℚ)
    (h : i ∈ bs.map Balance.user_id) :
    sumBalances (addToFirst bs i d) = sumBalances bs + d := by
  induction bs with
  | nil => simp at h
  | cons b rest ih =>
    by_cases hb : b.user_id = i
    · simp [addToFirst, hb, sumBalances]
      ring
    · have hr : i ∈ rest.map Balance.user_id := by
        rcases List.mem_cons.mp h with h1 | h1
        · exact absurd h1.symm hb
        · exact h1
      simp only [addToFirst, if_neg hb, sumBalances, List.map_cons, List.sum_cons]
      rw [show (rest.map Balance.balance).sum = sumBalances rest from rfl,
        show ((addToFirst rest i d).map Balance.balance).sum = sumBalances (addToFirst rest i d) from rfl,
        ih hr]
      ring

theorem initBalances_map_user_id (ms : List MemberRow) :
    (initBalances ms).map Balance.user_id = ms.map MemberRow.id := by
  simp [initBalances]

theorem sumBalances_initBalances (ms : List MemberRow) :
    sumBalances (initBalances ms) = 0 := by
  induction ms with
  | nil => rfl
  | cons m rest ih => simpa [initBalances, sumBalances] using ih

theorem sumBalances_foldl_addToFirst (splits : List Nat) (c : ℚ) (bs : List Balance)
    (h : ∀ m ∈ splits, m ∈ bs.map Balance.user_id) :
    sumBalances (splits.foldl (fun acc m => addToFirst acc m c) bs)
      = sumBalances bs + splits.length * c := by
  induction splits generalizing bs with
  | nil => simp
  | cons m rest ih =>
    rw [List.foldl_cons,
      ih (addToFirst bs m c) (fun x hx => by
        rw [addToFirst_map_user_id]
        exact h x (List.mem_cons_of_mem _ hx)),
      sumBalances_addToFirst_mem bs m c (h m (List.mem_cons_self _ _))]
    simp only [List.length_cons]
    push_cast
    ring

theorem sumBalances_applyExpense (bs : List Balance) (e : ExpenseRow)
    (ht : e.expense_type ≠ "transfer") (hi : e.expense_type ≠ "income")
    (hp : e.paid_by ∈ bs.map Balance.user_id)
    (hs : ∀ m ∈ e.splits, m ∈ bs.map Balance.user_id) :
    sumBalances (applyExpense bs e) = sumBalances bs := by
  by_cases h0 : e.splits.length = 0
  · simp only [applyExpense, if_neg ht, if_neg hi, if_pos h0]
  · have hn : (e.splits.length : ℚ) ≠ 0 := Nat.cast_ne_zero.mpr h0
    simp only [applyExpense, if_neg ht, if_neg hi, if_neg h0]
    rw [sumBalances_foldl_addToFirst _ _ _ (fun m hm => by
        rw [addToFirst_map_user_id]
        exact hs m hm),
      sumBalances_addToFirst_mem bs _ _ hp]
    field_simp
    ring

theorem sumBalances_foldl_applyExpense (es : List ExpenseRow) (bs : List Balance)
    (hkind : ∀ e ∈ es, e.expense_type ≠ "transfer" ∧ e.expense_type ≠ "income")
    (hmem : ∀ e ∈ es, e.paid_by ∈ bs.map Balance.user_id
      ∧ ∀ m ∈ e.splits, m ∈ bs.map Balance.user_id) :
    sumBalances (es.foldl applyExpense bs) = sumBalances bs := by
  induction es generalizing bs with
  | nil => rfl
  | cons e es ih =>
    rw [List.foldl_cons,
      ih (applyExpense bs e) (fun x hx => hkind x (List.mem_cons_of_mem _ hx))
        (fun x hx => ⟨by
          rw [applyExpense_map_user_id]
          exact (hmem x (List.mem_cons_of_mem _ hx)).1,
          fun m hm => by
          rw [applyExpense_map_user_id]
          exact (hmem x (List.mem_cons_of_mem _ hx)).2 m hm⟩),
      sumBalances_applyExpense bs e (hkind e (List.mem_cons_self _ _)).1
        (hkind e (List.mem_cons_self _ _)).2 (hmem e (List.mem_cons_self _ _)).1
        (hmem e (List.mem_cons_self _ _)).2]

theorem applyLegs_filter (l : List (Nat × ℚ)) (ids : List Nat) (bs : List Balance)
    (h : bs.map Balance.user_id = ids) :
    applyLegs bs l = applyLegs bs (l.filter fun p => decide (p.1 ∈ ids)) := by
  induction l generalizing bs with
  | nil => rfl
  | cons p l ih =>
    by_cases hp : p.1 ∈ ids
    · rw [List.filter_cons_of_pos (by simpa using hp)]
      show applyLegs (addToFirst bs p.1 p.2) l = applyLegs (addToFirst bs p.1 p.2) _
      exact ih _ (by rw [addToFirst_map_user_id, h])
    · rw [List.filter_cons_of_neg (by simpa using hp)]
      show applyLegs (addToFirst bs p.1 p.2) l = _
      rw [addToFirst_not_mem bs p.1 p.2 (h ▸ hp)]
      exact ih _ h

theorem foldl_applyExpense_filter (es : List ExpenseRow) (ids : List Nat) (bs : List Balance)
    (h : bs.map Balance.user_id = ids) :
    es.foldl applyExpense bs
      = es.foldl (fun acc e => applyLegs acc ((txLegs e).filter fun p => decide (p.1 ∈ ids))) bs := by
  induction es generalizing bs with
  | nil => rfl
  | cons e es ih =>
    rw [List.foldl_cons, List.foldl_cons, applyExpense_eq_applyLegs,
      applyLegs_filter (txLegs e) ids bs h]
    exact ih _ (by rw [applyLegs_map_user_id, h])

/-! Guarded mutating handlers (src/backend/src/routes.rs).

The six mutating routes check exactly one capability before touching the
store.  The SQL store is modelled as in-memory lists; each handler returns
the HTTP-level outcome together with the resulting store, so a result of
`(.error .Forbidden, s)` means the request was rejected with no mutation.
Freshly generated UUIDs are passed in as arguments. -/

inductive Status where
  | Forbidden
  | NotFound
  | BadRequest
  | InternalServerError
  | NoContent
deriving DecidableEq

structure StoredMember where
  id : Nat
  name : String
  paypal_email : Option String
  iban : Option String
deriving DecidableEq

structure StoredExpense where
  id : Nat
  description : String
  amount : ℚ
  paid_by : Nat
  expense_type : String
  transfer_to : Option Nat
  exchange_rate : ℚ
  splits : List Nat
deriving DecidableEq

structure Store where
  groupExists : Bool
  members : List StoredMember
  expenses : List StoredExpense
deriving DecidableEq

/-- Handler `add_member`: guard on `manage_members`, check the group exists,
insert the new member row. -/
def add_member (auth : Permissions) (s : Store) (newId : Nat) (nm : String) :
    Except Status Unit × Store :=
  if !auth.has_manage_members then (.error .Forbidden, s)
  else if !s.groupExists then (.error .NotFound, s)
  else (.ok (), { s with members := s.members ++ [⟨newId, nm, none, none⟩] })

/-- Handler `update_member_payment`: guard on `update_payment`, check the member
belongs to the group, overwrite paypal/iban. -/
def update_member_payment (auth : Permissions) (s : Store) (memberId : Nat)
    (paypal iban : Option String) : Except Status Unit × Store :=
  if !auth.has_update_payment then (.error .Forbidden, s)
  else if (s.members.find? fun m => m.id == memberId).isNone then (.error .NotFound, s)
  else (.ok (), { s with members := s.members.map fun m =>
    if m.id == memberId then { m with paypal_email := paypal, iban := iban } else m })

/-- Handler `create_expense`: guard on `add_expenses`; the group fetch failing is
the error path of `fetch_one`; then insert the expense with its splits. -/
def create_expense (auth : Permissions) (s : Store) (e : StoredExpense) :
    Except Status Unit × Store :=
  if !auth.has_add_expenses then (.error .Forbidden, s)
  else if !s.groupExists then (.error .InternalServerError, s)
  else (.ok (), { s with expenses := s.expenses ++ [e] })

/-- Handler `update_expense`: guard on `edit_expenses`, check the expense belongs
to the group, replace its fields and splits. -/
def update_expense (auth : Permissions) (s : Store) (expenseId : Nat) (e : StoredExpense) :
    Except Status Unit × Store :=
  if !auth.has_edit_expenses then (.error .Forbidden, s)
  else if (s.expenses.find? fun x => x.id == expenseId).isNone then (.error .NotFound, s)
  else (.ok (), { s with expenses := s.expenses.map fun x =>
    if x.id == expenseId then { e with id := expenseId } else x })

/-- Handler `delete_expense`: guard on `edit_expenses`, check the expense belongs
to the group, remove it with its splits. -/
def delete_expense (auth : Permissions) (s : Store) (expenseId : Nat) :
    Except Status Unit × Store :=
  if !auth.has_edit_expenses then (.error .Forbidden, s)
  else if (s.expenses.find? fun x => x.id == expenseId).isNone then (.error .NotFound, s)
  else (.ok (), { s with expenses := s.expenses.filter fun x => !(x.id == expenseId) })

/-- Handler `delete_group`: guard on `delete_group`, then delete splits, expenses,
members and the group row. -/
def delete_group (auth : Permissions) (s : Store) : Except Status Unit × Store :=
  if !auth.has_delete_group then (.error .Forbidden, s)
  else (.ok (), { groupExists := false, members := [], expenses := [] })

/-! Claim theorems. -/

/-- C1: for all capability sets A and B and each of the five fields X,
`cap_by(A, B)` grants X under resolution only if both A and B grant X, so
a derived token never exceeds its issuer. -/
theorem cap_by_non_escalation (A B : Permissions) :
    ((A.cap_by B).has_delete_group = true →
      A.has_delete_group = true ∧ B.has_delete_group = true)
    ∧ ((A.cap_by B).has_manage_members = true →
      A.has_manage_members = true ∧ B.has_manage_members = true)
    ∧ ((A.cap_by B).has_update_payment = true →
      A.has_update_payment = true ∧ B.has_update_payment = true)
    ∧ ((A.cap_by B).has_add_expenses = true →
      A.has_add_expenses = true ∧ B.has_add_expenses = true)
    ∧ ((A.cap_by B).has_edit_expenses = true →
      A.has_edit_expenses = true ∧ B.has_edit_expenses = true) := by
  simp [Permissions.cap_by, Permissions.has_delete_group, Permissions.has_manage_members,
    Permissions.has_update_payment, Permissions.has_add_expenses,
    Permissions.has_edit_expenses, Permissions.resolve]

/-- C1 witness at A = B = all(). -/
theorem cap_by_non_escalation_witness :
    (Permissions.all.has_delete_group = true ∧ Permissions.all.has_delete_group = true)
    ∧ (Permissions.all.has_manage_members = true ∧ Permissions.all.has_manage_members = true)
    ∧ (Permissions.all.has_update_payment = true ∧ Permissions.all.has_update_payment = true)
    ∧ (Permissions.all.has_add_expenses = true ∧ Permissions.all.has_add_expenses = true)
    ∧ (Permissions.all.has_edit_expenses = true ∧ Permissions.all.has_edit_expenses = true) :=
  have t := cap_by_non_escalation Permissions.all Permissions.all
  ⟨t.1 (by decide), t.2.1 (by decide), t.2.2.1 (by decide), t.2.2.2.1 (by decide),
    t.2.2.2.2 (by decide)⟩

/-- C7: for all capability sets A and B and each field X, `union_with(A, B)`
grants X under resolution whenever A or B grants X, so merging never
reduces a permission below either operand. -/
theorem union_with_non_reduction (A B : Permissions) :
    ((A.has_delete_group = true ∨ B.has_delete_group = true) →
      (A.union_with B).has_delete_group = true)
    ∧ ((A.has_manage_members = true ∨ B.has_manage_members = true) →
      (A.union_with B).has_manage_members = true)
    ∧ ((A.has_update_payment = true ∨ B.has_update_payment = true) →
      (A.union_with B).has_update_payment = true)
    ∧ ((A.has_add_expenses = true ∨ B.has_add_expenses = true) →
      (A.union_with B).has_add_expenses = true)
    ∧ ((A.has_edit_expenses = true ∨ B.has_edit_expenses = true) →
      (A.union_with B).has_edit_expenses = true) := by
  simp [Permissions.union_with, Permissions.has_delete_group, Permissions.has_manage_members,
    Permissions.has_update_payment, Permissions.has_add_expenses,
    Permissions.has_edit_expenses, Permissions.resolve]

/-- C7 witness at A = B = all(). -/
theorem union_with_non_reduction_witness :
    (Permissions.all.union_with Permissions.all).has_delete_group = true
    ∧ (Permissions.all.union_with Permissions.all).has_manage_members = true
    ∧ (Permissions.all.union_with Permissions.all).has_update_payment = true
    ∧ (Permissions.all.union_with Permissions.all).has_add_expenses = true
    ∧ (Permissions.all.union_with Permissions.all).has_edit_expenses = true :=
  have t := union_with_non_reduction Permissions.all Permissions.all
  ⟨t.1 (by decide), t.2.1 (by decide), t.2.2.1 (by decide), t.2.2.2.1 (by decide),
    t.2.2.2.2 (by decide)⟩

/-- A permission set whose delete_group field is unset (legacy). -/
def legacyDeleteUnset : Permissions :=
  ⟨none, some true, some true, some true, some true⟩

/-- C6 counterexample: for A with an unset field, `cap_by(A, all())` is not
equal to A — cap_by replaces the unset (None) field by a set (Some true)
field, so the claimed right-identity law fails as stated. -/
theorem cap_by_all_not_identity :
    ¬ legacyDeleteUnset.cap_by Permissions.all = legacyDeleteUnset := by decide

/-- C6 amended: `cap_by(A, all())` agrees with A on every field under
resolution (has_X equal for all five fields), and
`union_with(A, all()) = all()` holds exactly as claimed. -/
theorem cap_by_all_resolves_identity (A : Permissions) :
    ((A.cap_by Permissions.all).has_delete_group = A.has_delete_group
    ∧ (A.cap_by Permissions.all).has_manage_members = A.has_manage_members
    ∧ (A.cap_by Permissions.all).has_update_payment = A.has_update_payment
    ∧ (A.cap_by Permissions.all).has_add_expenses = A.has_add_expenses
    ∧ (A.cap_by Permissions.all).has_edit_expenses = A.has_edit_expenses)
    ∧ A.union_with Permissions.all = Permissions.all := by
  simp [Permissions.cap_by, Permissions.union_with, Permissions.all,
    Permissions.has_delete_group, Permissions.has_manage_members,
    Permissions.has_update_payment, Permissions.has_add_expenses,
    Permissions.has_edit_expenses, Permissions.resolve]

/-- C8: a verified claims blob with no capability field resolves to all():
every one of the five accessors returns true. -/
theorem legacy_claims_resolve_all (c : Claims) (h : c.permissions = none) :
    c.effective_permissions.has_delete_group = true
    ∧ c.effective_permissions.has_manage_members = true
    ∧ c.effective_permissions.has_update_payment = true
    ∧ c.effective_permissions.has_add_expenses = true
    ∧ c.effective_permissions.has_edit_expenses = true := by
  simp [Claims.effective_permissions, h, Permissions.all,
    Permissions.has_delete_group, Permissions.has_manage_members,
    Permissions.has_update_payment, Permissions.has_add_expenses,
    Permissions.has_edit_expenses, Permissions.resolve]

/-- C8 witness at a concrete legacy claims blob. -/
theorem legacy_claims_resolve_all_witness :
    ({ group_id := 7, exp := 0, permissions := none } : Claims).permissions = none
    ∧ ({ group_id := 7, exp := 0, permissions := none } : Claims).effective_permissions.has_delete_group = true
    ∧ ({ group_id := 7, exp := 0, permissions := none } : Claims).effective_permissions.has_manage_members = true
    ∧ ({ group_id := 7, exp := 0, permissions := none } : Claims).effective_permissions.has_update_payment = true
    ∧ ({ group_id := 7, exp := 0, permissions := none } : Claims).effective_permissions.has_add_expenses = true
    ∧ ({ group_id := 7, exp := 0, permissions := none } : Claims).effective_permissions.has_edit_expenses = true :=
  have t := legacy_claims_resolve_all { group_id := 7, exp := 0, permissions := none } rfl
  ⟨rfl, t.1, t.2.1, t.2.2.1, t.2.2.2.1, t.2.2.2.2⟩

/-- C10: every field of a cap_by or union_with result is a concrete
`some` boolean, never the unset `none` state, so resolution of a derived
or merged set never invokes the legacy None-defaults-to-true rule. -/
theorem derived_fields_always_set (A B : Permissions) :
    (A.cap_by B).can_delete_group.isSome = true
    ∧ (A.cap_by B).can_manage_members.isSome = true
    ∧ (A.cap_by B).can_update_payment.isSome = true
    ∧ (A.cap_by B).can_add_expenses.isSome = true
    ∧ (A.cap_by B).can_edit_expenses.isSome = true
    ∧ (A.union_with B).can_delete_group.isSome = true
    ∧ (A.union_with B).can_manage_members.isSome = true
    ∧ (A.union_with B).can_update_payment.isSome = true
    ∧ (A.union_with B).can_add_expenses.isSome = true
    ∧ (A.union_with B).can_edit_expenses.isSome = true := by
  simp [Permissions.cap_by, Permissions.union_with]

/-- C3: `compute_balances` returns the same per-member balances for every
permutation of the transaction list. -/
theorem compute_balances_perm_invariant (ms : List MemberRow) {es1 es2 : List ExpenseRow}
    (h : es1.Perm es2) : compute_balances ms es1 = compute_balances ms es2 := by
  unfold compute_balances
  exact h.foldl_eq' (fun x _ y _ z => applyExpense_swap z x y) _

/-- Members used in concrete ledger evaluations. -/
def wMembers : List MemberRow := [⟨1, "A"⟩, ⟨2, "B"⟩]

/-- A concrete expense: 30 split between both members, paid by member 1. -/
def wExpense1 : ExpenseRow := ⟨30, 1, 1, "expense", none, [1, 2]⟩

/-- A concrete transfer: 15 from member 1 to member 2. -/
def wExpense2 : ExpenseRow := ⟨15, 1, 1, "transfer", some 2, []⟩

/-- C3 witness: swapping two concrete transactions leaves the result
unchanged. -/
theorem compute_balances_perm_invariant_witness :
    compute_balances wMembers [wExpense1, wExpense2]
      = compute_balances wMembers [wExpense2, wExpense1] :=
  compute_balances_perm_invariant wMembers (List.Perm.swap wExpense2 wExpense1 [])

/-- C2 counterexample: with one member "A" (id 0) and a single expense-kind
transaction paid by the absent id 1 and split over [0], the dropped payer
leg makes the balances sum to -10, not 0 — so the claim fails for member
lists that do not contain every referenced id. -/
theorem expense_only_sum_zero_counterexample :
    ¬ sumBalances (compute_balances [⟨0, "A"⟩]
        [⟨10, 1, 1, "expense", none, [0]⟩]) = 0 := by
  have h1 : ("expense" : String) ≠ "transfer" := by decide
  have h2 : ("expense" : String) ≠ "income" := by decide
  norm_num [compute_balances, initBalances, applyExpense, addToFirst, sumBalances, h1, h2]

/-- C2 amended: for histories of expense-kind transactions in which each
transaction's payer and split member ids all occur in the member list, the
returned balances sum to exactly zero. -/
theorem expense_only_sum_zero (ms : List MemberRow) (es : List ExpenseRow)
    (hkind : ∀ e ∈ es, e.expense_type ≠ "transfer" ∧ e.expense_type ≠ "income")
    (hmem : ∀ e ∈ es, e.paid_by ∈ ms.map MemberRow.id
      ∧ ∀ m ∈ e.splits, m ∈ ms.map MemberRow.id) :
    sumBalances (compute_balances ms es) = 0 := by
  unfold compute_balances
  rw [sumBalances_foldl_applyExpense es (initBalances ms) hkind
      (by simpa only [initBalances_map_user_id] using hmem),
    sumBalances_initBalances]

/-- C2 witness: a concrete expense-only history over present members. -/
theorem expense_only_sum_zero_witness :
    (∀ e ∈ [wExpense1], e.expense_type ≠ "transfer" ∧ e.expense_type ≠ "income")
    ∧ (∀ e ∈ [wExpense1], e.paid_by ∈ wMembers.map MemberRow.id
      ∧ ∀ m ∈ e.splits, m ∈ wMembers.map MemberRow.id)
    ∧ sumBalances (compute_balances wMembers [wExpense1]) = 0 :=
  ⟨by decide, by decide,
    expense_only_sum_zero wMembers [wExpense1] (by decide) (by decide)⟩

/-- C4: an expense- or income-kind transaction with an empty split set is
a complete no-op in `compute_balances`: removing it from the history
leaves every balance unchanged, and the (total) computation performs no
division by zero. -/
theorem empty_split_noop (ms : List MemberRow) (es1 es2 : List ExpenseRow) (e : ExpenseRow)
    (htype : e.expense_type ≠ "transfer") (hsplit : e.splits = []) :
    compute_balances ms (es1 ++ e :: es2) = compute_balances ms (es1 ++ es2) := by
  unfold compute_balances
  rw [List.foldl_append, List.foldl_append, List.foldl_cons]
  congr 1
  simp [applyExpense, if_neg htype, hsplit]

/-- C4 witness: a concrete empty-split expense changes nothing. -/
theorem empty_split_noop_witness :
    (ExpenseRow.expense_type ⟨50, 1, 1, "expense", none, []⟩ ≠ "transfer")
    ∧ (ExpenseRow.splits ⟨50, 1, 1, "expense", none, []⟩ = [])
    ∧ compute_balances wMembers ([] ++ (⟨50, 1, 1, "expense", none, []⟩ : ExpenseRow) :: [])
      = compute_balances wMembers ([] ++ []) :=
  ⟨by decide, rfl, empty_split_noop wMembers [] [] ⟨50, 1, 1, "expense", none, []⟩
    (by decide) rfl⟩

/-- C5: `compute_balances` never fails on a transaction referencing ids
absent from the member list: it equals the fold that applies, for each
transaction, exactly the legs whose member id occurs in the member list —
each absent leg contributes nothing, every present leg of the same
transaction is applied as usual, and the divisor inside `txLegs` is the
length of the full split list, absent members included. -/
theorem absent_member_legs_dropped (ms : List MemberRow) (es : List ExpenseRow) :
    compute_balances ms es
      = es.foldl (fun acc e => applyLegs acc ((txLegs e).filter fun p =>
          decide (p.1 ∈ ms.map MemberRow.id))) (initBalances ms) := by
  unfold compute_balances
  exact foldl_applyExpense_filter es (ms.map MemberRow.id) (initBalances ms)
    (initBalances_map_user_id ms)

/-- C9: each of the six mutating handlers, when the resolved capability
set lacks the single capability it requires, returns Forbidden with the
store unchanged. -/
theorem forbidden_no_mutation (p : Permissions) (s : Store) (newId memberId expenseId : Nat)
    (nm : String) (paypal iban : Option String) (e : StoredExpense) :
    (p.has_manage_members = false → add_member p s newId nm = (.error .Forbidden, s))
    ∧ (p.has_update_payment = false →
        update_member_payment p s memberId paypal iban = (.error .Forbidden, s))
    ∧ (p.has_add_expenses = false → create_expense p s e = (.error .Forbidden, s))
    ∧ (p.has_edit_expenses = false →
        update_expense p s expenseId e = (.error .Forbidden, s))
    ∧ (p.has_edit_expenses = false → delete_expense p s expenseId = (.error .Forbidden, s))
    ∧ (p.has_delete_group = false → delete_group p s = (.error .Forbidden, s)) := by
  refine ⟨fun h => ?_, fun h => ?_, fun h => ?_, fun h => ?_, fun h => ?_, fun h => ?_⟩ <;>
    simp [add_member, update_member_payment, create_expense, update_expense,
      delete_expense, delete_group, h]

/-- A capability set denying everything. -/
def noPerms : Permissions := ⟨some false, some false, some false, some false, some false⟩

/-- A store with an existing empty group. -/
def emptyStore : Store := ⟨true, [], []⟩

/-- A concrete expense row for the handler model. -/
def dummyExpense : StoredExpense := ⟨0, "x", 1, 1, "expense", none, 1, []⟩

/-- C9 witness: all six handlers reject the all-denied capability set on a
concrete store without changing it. -/
theorem forbidden_no_mutation_witness :
    add_member noPerms emptyStore 3 "C" = (.error .Forbidden, emptyStore)
    ∧ update_member_payment noPerms emptyStore 1 none none = (.error .Forbidden, emptyStore)
    ∧ create_expense noPerms emptyStore dummyExpense = (.error .Forbidden, emptyStore)
    ∧ update_expense noPerms emptyStore 0 dummyExpense = (.error .Forbidden, emptyStore)
    ∧ delete_expense noPerms emptyStore 0 = (.error .Forbidden, emptyStore)
    ∧ delete_group noPerms emptyStore = (.error .Forbidden, emptyStore) :=
  have t := forbidden_no_mutation noPerms emptyStore 3 1 0 "C" none none dummyExpense
  ⟨t.1 (by decide), t.2.1 (by decide), t.2.2.1 (by decide), t.2.2.2.1 (by decide),
    t.2.2.2.2.1 (by decide), t.2.2.2.2.2 (by decide)⟩

end ShareCost
